import Mathlib

/-!
Verification development for `marshmallow_dataclass2/__init__.py`:
a shallow embedding of the dataclass-to-marshmallow schema compiler
(`class_schema`, `_internal_class_schema`, `_field_for_schema`,
`_field_for_union_type`, `_field_for_container_type`,
`_container_type_add_any`, `LazyGenericSchema`, `_check_decorated_type`,
`_SchemaContext` / `_LocalStack`, and the `lru_cache` memo), together with
theorems about its behaviour.
-/

namespace MarshmallowDataclass2

/-! ## Data values

Untyped data handled by schemas: nested mappings/sequences of primitives,
with `vnull` for Python `None`.  `marshmallow.missing` is represented by
`Option Value = none` at use sites.  Lists and dictionaries are given by
the mutually defined `ValueList`/`ValueDict` so that equality is
decidable by computation. -/

mutual
inductive Value
  | vnull
  | vbool (b : Bool)
  | vint (n : Int)
  | vstr (s : String)
  | vlist (xs : ValueList)
  | vdict (xs : ValueDict)

inductive ValueList
  | nil
  | cons (head : Value) (tail : ValueList)

inductive ValueDict
  | nil
  | cons (key : String) (val : Value) (tail : ValueDict)
end

deriving instance DecidableEq for Value, ValueList, ValueDict
deriving instance Repr for Value, ValueList, ValueDict

/-! ## Python type annotations

The fragment of Python type annotations the compiler dispatches on:
primitives, `Any`, `NoneType`, type variables, unions (`Optional[T]` is
`Union[T, None]`), parametrized containers, the bare (argument-less)
container objects of `CONTAINER_TYPES` (`list`/`List`, `dict`/`Dict`,
`set`/`Set`, `frozenset`/`FrozenSet`, `typing.Sequence`,
`typing.Mapping`, `tuple`/`Tuple`), and references to classes (`ref`)
or to parametrized generic aliases (`refAlias`), identified by class
name (class names are assumed unique, so they serve as class
identities). -/

mutual
inductive PyType
  | pint
  | pstr
  | pfloat
  | pbool
  | pany
  | pnone
  | tyvar (v : String)
  | punion (args : PyTypeList)
  | plist (a : PyType)
  | pdict (k v : PyType)
  | pset (a : PyType)
  | pfrozenset (a : PyType)
  | psequence (a : PyType)
  | pmapping (k v : PyType)
  | bareList
  | bareDict
  | bareSet
  | bareFrozenset
  | bareSequence
  | bareMapping
  | bareTuple
  | ref (name : String)
  | refAlias (name : String) (args : PyTypeList)

inductive PyTypeList
  | nil
  | cons (head : PyType) (tail : PyTypeList)
end

deriving instance DecidableEq for PyType, PyTypeList
deriving instance Repr for PyType, PyTypeList

namespace PyTypeList

/-- List membership for `PyTypeList`. -/
def contains (t : PyType) : PyTypeList → Bool
  | .nil => false
  | .cons h rest => h = t || contains t rest

end PyTypeList

/-- `typing_inspect.is_optional_type`: a union one of whose arguments is
`NoneType`. -/
def isOptionalType : PyType → Bool
  | .punion args => args.contains .pnone
  | _ => false

/-- The non-`NoneType` members of a union's argument list
(`[t for t in arguments if t is not NoneType]` in
`_field_for_union_type`). -/
def removeNone : PyTypeList → PyTypeList
  | .nil => .nil
  | .cons .pnone rest => removeNone rest
  | .cons t rest => .cons t (removeNone rest)

/-- Membership test for the `CONTAINER_TYPES` tuple: it contains exactly
the bare container objects (`list`, `List`, `tuple`, `Tuple`,
`frozenset`, `FrozenSet`, `set`, `Set`, `collections.abc.Sequence`,
`Sequence`, `dict`, `Dict`, `collections.abc.Mapping`, `Mapping`). -/
def inContainerTypes : PyType → Bool
  | .bareList | .bareDict | .bareSet | .bareFrozenset
  | .bareSequence | .bareMapping | .bareTuple => true
  | _ => false

/-- `_container_type_add_any`: if `typ` is a container type without
arguments, replace the arguments by `Any`.  The source handles
`list`/`List`, `dict`/`Dict`, `Mapping`, `Sequence`, `set`/`Set` and
`frozenset`/`FrozenSet`; any other type (including bare `tuple`) is
returned unchanged. -/
def containerTypeAddAny : PyType → PyType
  | .bareList => .plist .pany
  | .bareDict => .pdict .pany .pany
  | .bareMapping => .pmapping .pany .pany
  | .bareSequence => .psequence .pany
  | .bareSet => .pset .pany
  | .bareFrozenset => .pfrozenset .pany
  | t => t

/-- A display name for a type, used in error/warning messages
(`getattr(clazz, '__name__', repr(clazz))`). -/
def pyTypeName : PyType → String
  | .pint => "int"
  | .pstr => "str"
  | .pfloat => "float"
  | .pbool => "bool"
  | .pany => "Any"
  | .pnone => "NoneType"
  | .tyvar v => v
  | .punion _ => "Union"
  | .plist _ => "List"
  | .pdict _ _ => "Dict"
  | .pset _ => "Set"
  | .pfrozenset _ => "FrozenSet"
  | .psequence _ => "Sequence"
  | .pmapping _ _ => "Mapping"
  | .bareList => "list"
  | .bareDict => "dict"
  | .bareSet => "set"
  | .bareFrozenset => "frozenset"
  | .bareSequence => "Sequence"
  | .bareMapping => "Mapping"
  | .bareTuple => "tuple"
  | .ref n => n
  | .refAlias n _ => n

mutual
/-- Substitute type variables by the concrete types bound in `binding`
(an unbound variable is left in place). -/
def subst (binding : List (String × PyType)) : PyType → PyType
  | .tyvar v =>
    match binding.lookup v with
    | some t => t
    | none => .tyvar v
  | .punion args => .punion (substList binding args)
  | .plist a => .plist (subst binding a)
  | .pdict k v => .pdict (subst binding k) (subst binding v)
  | .pset a => .pset (subst binding a)
  | .pfrozenset a => .pfrozenset (subst binding a)
  | .psequence a => .psequence (subst binding a)
  | .pmapping k v => .pmapping (subst binding k) (subst binding v)
  | .refAlias n args => .refAlias n (substList binding args)
  | t => t

def substList (binding : List (String × PyType)) : PyTypeList → PyTypeList
  | .nil => .nil
  | .cons t rest => .cons (subst binding t) (substList binding rest)
end

mutual
/-- Does a type still mention a type variable? -/
def hasTyvar : PyType → Bool
  | .tyvar _ => true
  | .punion args => hasTyvarList args
  | .plist a => hasTyvar a
  | .pdict k v => hasTyvar k || hasTyvar v
  | .pset a => hasTyvar a
  | .pfrozenset a => hasTyvar a
  | .psequence a => hasTyvar a
  | .pmapping k v => hasTyvar k || hasTyvar v
  | .refAlias _ args => hasTyvarList args
  | _ => false

def hasTyvarList : PyTypeList → Bool
  | .nil => false
  | .cons t rest => hasTyvar t || hasTyvarList rest
end

end MarshmallowDataclass2

namespace MarshmallowDataclass2

/-! ## Field metadata

Python passes field options in a `metadata` dict; `Option` fields model
present/absent keys (`setdefault` keeps a present key).  Only the keys
the compiler itself reads and writes are modelled (`required`,
`allow_none`, `dump_default`, `load_default`). -/

structure Meta where
  required : Option Bool := none
  allowNone : Option Bool := none
  dumpDefault : Option Value := none
  loadDefault : Option Value := none
  deriving Repr, DecidableEq

/-- The concrete primitive marshmallow field classes reachable through
`TYPE_MAPPING` in the modelled fragment. -/
inductive FieldKind
  | kInteger
  | kString
  | kFloat
  | kBoolean
  deriving Repr, DecidableEq

/-- A base schema passed by the user: only its identity-relevant
`TYPE_MAPPING` override is modelled. -/
structure BaseSchema where
  typeMapping : List (PyType × FieldKind) := []

/-- Synthesized marshmallow fields.  `nestedName` is
`marshmallow.fields.Nested` applied to a class-name string (a forward
reference taken from the context's `seen_classes`); `nestedSchema` is
`Nested` applied to a compiled schema class, carried inline.  `unionF`
pairs each alternative's field with its originating type, as
`union_field.Union` receives them. -/
inductive Field
  | integer (m : Meta)
  | stringF (m : Meta)
  | floatF (m : Meta)
  | boolean (m : Meta)
  | raw (m : Meta)
  | listF (child : Field) (m : Meta)
  | seqF (child : Field) (m : Meta)
  | setF (child : Field) (frozen : Bool) (m : Meta)
  | dictF (keyField valField : Field) (m : Meta)
  | unionF (alts : List (PyType × Field)) (m : Meta)
  | nestedName (name : String) (m : Meta)
  | nestedSchema (className : String) (fields : List (String × Field)) (m : Meta)
  deriving Repr

/-- The metadata attached to a synthesized field. -/
def Field.meta : Field → Meta
  | .integer m | .stringF m | .floatF m | .boolean m | .raw m
  | .listF _ m | .seqF _ m | .setF _ _ m | .dictF _ _ m
  | .unionF _ m | .nestedName _ m | .nestedSchema _ _ m => m

/-- A compiled schema: the record's class name and its attribute-name to
field mapping in insertion order. -/
structure Schema where
  className : String
  fields : List (String × Field)
  deriving Repr

/-- Exceptions of the compiler: `UnboundTypeVarError` (a `TypeError`
subclass defined in `generic_resolver`), other `TypeError`s, and the
fuel-exhaustion artifact of the embedding (standing for a computation
that would still be recursing). -/
inductive Err
  | unboundTypeVar (msg : String)
  | typeError (msg : String)
  | fuelExhausted
  deriving Repr, DecidableEq

/-- Observable warnings (`warnings.warn`): the not-a-dataclass implicit
conversion warning, tagged with the display name of the class being
converted. -/
inductive Warn
  | conversionWarning (className : String)
  deriving Repr, DecidableEq

/-- Result of a compiler computation: a value or a raised exception,
together with the warnings emitted before returning/raising. -/
abbrev CRes (α : Type) := Except Err α × List Warn

/-! ## Class declarations -/

/-- One dataclass field as reflected by `dataclasses.fields`: name,
declared type, default (`none` is `dataclasses.MISSING`, so
`_get_field_default` yields `marshmallow.missing`), metadata mapping,
and the `init` flag. -/
structure DcField where
  name : String
  type : PyType
  default : Option Value := none
  metadata : Meta := {}
  init : Bool := true
  deriving Repr, DecidableEq

/-- A user class declaration.  `params` are its generic type variables
(empty for a non-generic class); `isDataclass` says whether
`dataclasses.is_dataclass` holds; `convertible` whether
`dataclasses.dataclass(clazz)` would succeed (it mutates the class in
place, so conversion keeps the same identity); `includeNonInit` models
`Meta.include_non_init`. -/
structure ClassDecl where
  name : String
  params : List String := []
  fields : List DcField := []
  isDataclass : Bool := true
  convertible : Bool := true
  includeNonInit : Bool := false
  deriving Repr, DecidableEq

/-- The object a compile request receives: a class, or a parametrized
generic alias `G[args]`. -/
inductive Clazz
  | plain (d : ClassDecl)
  | galias (d : ClassDecl) (args : PyTypeList)
  deriving Repr, DecidableEq

/-- The underlying class declaration. -/
def Clazz.origDecl : Clazz → ClassDecl
  | .plain d => d
  | .galias d _ => d

/-- `typing_inspect.is_generic_type`. -/
def Clazz.isGenericType : Clazz → Bool
  | .plain d => !d.params.isEmpty
  | .galias _ _ => true

/-- The display name computed at the start of `_internal_class_schema`
(`getattr(clazz, '__name__', repr(clazz))`; a generic alias reports its
origin's name). -/
def Clazz.displayName : Clazz → String
  | .plain d => d.name
  | .galias d _ => d.name

/-- The environment of declared classes, consulted to resolve a `ref`
or `refAlias` annotation to its class object. -/
abbrev Env := List ClassDecl

def envLookup : Env → String → Option ClassDecl
  | [], _ => none
  | d :: rest, n => if d.name = n then some d else envLookup rest n

/-- The `seen_classes` mapping of the active `_SchemaContext`: classes
currently being compiled, keyed by class identity, mapped to their
display name. -/
abbrev Seen := List (Clazz × String)

def seenLookup : Seen → Clazz → Option String
  | [], _ => none
  | (c, n) :: rest, cl => if cl = c then some n else seenLookup rest cl

/-- `Modelled from the spec:` the generic binding resolver
(`generic_resolver.get_generic_dataclass_fields`, whose source is not in
the repository snapshot).  Per §4.1 of the spec, it substitutes the
concrete type arguments bound to the class's type variables into every
field's declared type, and raises `UnboundTypeVarError` naming the
record type and the unresolved field names when a variable remains
unbound (inheritance-chain walking and variable defaults are not
needed by the claims and are not modelled). -/
def genericFields (d : ClassDecl) (binding : List (String × PyType)) :
    Except Err (List DcField) :=
  if !d.isDataclass then
    .error (.typeError (d.name ++ " is not a dataclass"))
  else
    let substituted := d.fields.map (fun f => { f with type := subst binding f.type })
    let unbound := (substituted.filter (fun f => hasTyvar f.type)).map (·.name)
    if unbound.isEmpty then .ok substituted
    else .error (.unboundTypeVar
      (d.name ++ " has unbound fields: " ++ String.intercalate ", " unbound))

/-- `Clazz.params` zipped with alias arguments as a binding list. -/
def mkBinding : List String → PyTypeList → List (String × PyType)
  | [], _ => []
  | _, .nil => []
  | p :: ps, .cons t ts => (p, t) :: mkBinding ps ts

/-- `_dataclass_fields`: direct `dataclasses.fields` reflection for
non-generic classes (a `TypeError` if the class is not a dataclass),
the generic resolver otherwise. -/
def dataclassFields : Clazz → Except Err (List DcField)
  | .plain d =>
    if d.params.isEmpty then
      if d.isDataclass then .ok d.fields
      else .error (.typeError (d.name ++ " is not a dataclass"))
    else genericFields d []
  | .galias d args => genericFields d (mkBinding d.params args)

/-- `dataclasses.dataclass(clazz)` applied as implicit conversion: it
mutates the class in place into a dataclass when it succeeds, and
raises for objects it cannot process (e.g. a generic alias). -/
def convertClazz : Clazz → Except Err Clazz
  | .plain d =>
    if d.convertible then .ok (.plain { d with isDataclass := true })
    else .error (.typeError ("cannot create dataclass from " ++ d.name))
  | .galias _ _ => .error (.typeError "dataclass() should be called with a class")

end MarshmallowDataclass2

namespace MarshmallowDataclass2

/-! ## Metadata policies of `_field_for_schema` -/

/-- Lines 940-948 of `_field_for_schema`: an explicit non-missing
default becomes the `dump_default` and, unless the field is explicitly
required, the `load_default`; absent any default, `required` defaults to
"true unless the type is optional". -/
def applyDefaultPolicy (typ : PyType) (dflt : Option Value) (md : Meta) : Meta :=
  match dflt with
  | some d =>
    let md1 := { md with dumpDefault := some (md.dumpDefault.getD d) }
    if md1.required.getD false then md1
    else { md1 with loadDefault := some (md1.loadDefault.getD d) }
  | none => { md with required := some (md.required.getD (!isOptionalType typ)) }

/-- Lines 853-858 of `_field_for_union_type`: for an optional union,
default `allow_none` to true, `dump_default` to null, `load_default` to
null unless the field is required, and `required` to false. -/
def optionalMeta (md : Meta) : Meta :=
  let md1 := { md with allowNone := some (md.allowNone.getD true),
                       dumpDefault := some (md.dumpDefault.getD .vnull) }
  let md2 :=
    if md1.required.getD false then md1
    else { md1 with loadDefault := some (md1.loadDefault.getD .vnull) }
  { md2 with required := some (md2.required.getD false) }

/-- `marshmallow.Schema.TYPE_MAPPING` restricted to the modelled
primitives. -/
def defaultTypeMapping : PyType → Option FieldKind
  | .pint => some .kInteger
  | .pstr => some .kString
  | .pfloat => some .kFloat
  | .pbool => some .kBoolean
  | _ => none

/-- `_field_by_type`: the base schema's `TYPE_MAPPING` override is
consulted first, then the default mapping. -/
def fieldByType (typ : PyType) (b : Option BaseSchema) : Option FieldKind :=
  match (match b with
         | some bs => bs.typeMapping.lookup typ
         | none => none) with
  | some k => some k
  | none => defaultTypeMapping typ

/-- Construct the primitive field `field(**metadata)`. -/
def mkPrimField : FieldKind → Meta → Field
  | .kInteger, m => .integer m
  | .kString, m => .stringF m
  | .kFloat, m => .floatF m
  | .kBoolean, m => .boolean m

/-! ## The compiler

`fieldForSchema` embeds `_field_for_schema` restricted to the modelled
type fragment (no `Literal`/`Final`/`Annotated`/`NewType`/`Enum`
constructors exist in `PyType`, and the `marshmallow_field` metadata
override is not modelled, so those dispatch steps vanish);
`internalClassSchema` embeds `_internal_class_schema`.  The explicit
`fuel` argument makes the mutual recursion structural; `.fuelExhausted`
stands for a computation that would still be recursing.  The
`seen_classes` map of the active context is threaded explicitly (the
source mutates the top context in place; the model passes the map
downward, which is what the cycle-breaking reads rely on). -/

mutual

def fieldForSchema (env : Env) (b : Option BaseSchema) :
    Nat → Seen → PyType → Option Value → Meta → CRes Field
  | 0, _, _, _, _ => (.error .fuelExhausted, [])
  | fuel+1, seen, typ, dflt, md0 =>
    match typ with
    | .tyvar v =>
      (.error (.unboundTypeVar ("can not resolve type variable " ++ v)), [])
    | _ =>
      let md := applyDefaultPolicy typ dflt md0
      let typ1 := containerTypeAddAny typ
      match if inContainerTypes typ1 then none else fieldByType typ1 b with
      | some k => (.ok (mkPrimField k md), [])
      | none =>
        match typ1 with
        | .pany =>
          (.ok (.raw { md with allowNone := some (md.allowNone.getD true) }), [])
        | .punion args =>
          let md1 := if isOptionalType (.punion args) then optionalMeta md else md
          match removeNone args with
          | .cons t .nil => fieldForSchema env b fuel seen t none md1
          | subs =>
            let (r, ws) := unionAlts env b fuel seen subs
            (r.map (fun alts => .unionF alts md1), ws)
        | .plist a =>
          let (r, ws) := fieldForSchema env b fuel seen a none {}
          (r.map (fun ch => .listF ch md), ws)
        | .psequence a =>
          let (r, ws) := fieldForSchema env b fuel seen a none {}
          (r.map (fun ch => .seqF ch md), ws)
        | .pset a =>
          let (r, ws) := fieldForSchema env b fuel seen a none {}
          (r.map (fun ch => .setF ch false md), ws)
        | .pfrozenset a =>
          let (r, ws) := fieldForSchema env b fuel seen a none {}
          (r.map (fun ch => .setF ch true md), ws)
        | .pdict k v =>
          let (rk, ws1) := fieldForSchema env b fuel seen k none {}
          match rk with
          | .error e => (.error e, ws1)
          | .ok kf =>
            let (rv, ws2) := fieldForSchema env b fuel seen v none {}
            (rv.map (fun vf => .dictF kf vf md), ws1 ++ ws2)
        | .pmapping k v =>
          let (rk, ws1) := fieldForSchema env b fuel seen k none {}
          match rk with
          | .error e => (.error e, ws1)
          | .ok kf =>
            let (rv, ws2) := fieldForSchema env b fuel seen v none {}
            (rv.map (fun vf => .dictF kf vf md), ws1 ++ ws2)
        | .ref n =>
          match envLookup env n with
          | none => (.error (.typeError ("name " ++ n ++ " is not defined")), [])
          | some d => nestedFor env b fuel seen (.plain d) md
        | .refAlias n args =>
          match envLookup env n with
          | none => (.error (.typeError ("name " ++ n ++ " is not defined")), [])
          | some d => nestedFor env b fuel seen (.galias d args) md
        | other =>
          -- `tuple`, `NoneType`, ... fall through every dispatch step to the
          -- nested-record branch, whose implicit dataclass conversion warns
          -- and then fails.
          (.error (.typeError
            (pyTypeName other ++ " is not a dataclass and cannot be turned into one.")),
           [.conversionWarning (pyTypeName other)])

/-- The alternatives of a multi-member union: each non-null subtype is
synthesized with fresh metadata `{"required": True}` and paired with its
originating type (lines 868-879). -/
def unionAlts (env : Env) (b : Option BaseSchema) :
    Nat → Seen → PyTypeList → CRes (List (PyType × Field))
  | _, _, .nil => (.ok [], [])
  | 0, _, .cons _ _ => (.error .fuelExhausted, [])
  | fuel+1, seen, .cons t rest =>
    let (r, ws) := fieldForSchema env b fuel seen t none { required := some true }
    match r with
    | .error e => (.error e, ws)
    | .ok f =>
      let (r2, ws2) := unionAlts env b fuel seen rest
      match r2 with
      | .error e => (.error e, ws ++ ws2)
      | .ok fs => (.ok ((t, f) :: fs), ws ++ ws2)

/-- The nested-record branch of `_field_for_schema` (lines 1044-1063)
for an undecorated class: a class currently being compiled resolves to
the display name registered in `seen_classes` (a forward reference);
otherwise the nested schema is compiled by `_internal_class_schema`. -/
def nestedFor (env : Env) (b : Option BaseSchema) :
    Nat → Seen → Clazz → Meta → CRes Field
  | 0, _, _, _ => (.error .fuelExhausted, [])
  | fuel+1, seen, cl, md =>
    match seenLookup seen cl with
    | some name => (.ok (.nestedName name md), [])
    | none =>
      let (r, ws) := internalClassSchema env b fuel seen cl
      (r.map (fun s => .nestedSchema s.className s.fields md), ws)

/-- Synthesize the fields of a class in declaration order
(the generator consumed by `attributes.update`, lines 638-654): the
first raised exception aborts, keeping the warnings emitted before it. -/
def fieldsLoop (env : Env) (b : Option BaseSchema) :
    Nat → Seen → List DcField → CRes (List (String × Field))
  | _, _, [] => (.ok [], [])
  | 0, _, _ :: _ => (.error .fuelExhausted, [])
  | fuel+1, seen, f :: rest =>
    let (r, ws) := fieldForSchema env b fuel seen f.type f.default f.metadata
    match r with
    | .error e => (.error e, ws)
    | .ok fld =>
      let (r2, ws2) := fieldsLoop env b fuel seen rest
      match r2 with
      | .error e => (.error e, ws ++ ws2)
      | .ok flds => (.ok ((f.name, fld) :: flds), ws ++ ws2)

/-- `_internal_class_schema` (lines 581-657): register the class in the
active context's `seen_classes` under its display name before anything
else; reflect its fields (an `UnboundTypeVarError` is re-raised
unchanged; any other `TypeError` triggers the warn-convert-retry path,
whose own failures other than `UnboundTypeVarError` are re-raised as a
descriptive `TypeError`); then synthesize each eligible field and
assemble the schema. -/
def internalClassSchema (env : Env) (b : Option BaseSchema) :
    Nat → Seen → Clazz → CRes Schema
  | 0, _, _ => (.error .fuelExhausted, [])
  | fuel+1, seen, c =>
    let className := c.displayName
    let seen1 : Seen := (c, className) :: seen
    match dataclassFields c with
    | .error (.unboundTypeVar m) => (.error (.unboundTypeVar m), [])
    | .error _ =>
      let w := Warn.conversionWarning className
      match convertClazz c with
      | .error _ =>
        (.error (.typeError
          (className ++ " is not a dataclass and cannot be turned into one.")), [w])
      | .ok c2 =>
        let (r, ws) := internalClassSchema env b fuel seen1 c2
        match r with
        | .ok s => (.ok s, w :: ws)
        | .error (.unboundTypeVar m) => (.error (.unboundTypeVar m), w :: ws)
        | .error _ =>
          (.error (.typeError
            (className ++ " is not a dataclass and cannot be turned into one.")), w :: ws)
    | .ok dcfs =>
      let eligible := dcfs.filter (fun f => f.init || c.origDecl.includeNonInit)
      let (r, ws) := fieldsLoop env b fuel seen1 eligible
      (r.map (fun flds => { className := className, fields := flds }), ws)

end

end MarshmallowDataclass2

namespace MarshmallowDataclass2

/-! ## `class_schema` and the context stack

`_LocalStack` is a per-thread stack of `_SchemaContext`s; only the
`seen_classes` member of a context is relevant to the model (the lexical
namespaces serve textual forward references, which the `PyType`
fragment does not contain).  `class_schema` pushes a fresh context,
runs `_internal_class_schema` against the top of the stack, and the
`with`-block pops the context on exit whether the body returned or
raised. -/

def pushCtx (s : Seen) (stack : List Seen) : List Seen := s :: stack

def popCtx : List Seen → List Seen
  | [] => []
  | _ :: rest => rest

def topCtx : List Seen → Seen
  | [] => []
  | s :: _ => s

/-- `class_schema` (lines 382-535): a class that is neither a dataclass
nor a generic alias of a dataclass is first converted in place by
`dataclasses.dataclass` (line 527-528, outside the context block: a
conversion failure propagates as raised and the stack is never
touched); then a fresh `_SchemaContext` (empty `seen_classes`) is
pushed, the compilation runs against the top context, and the context
is popped on exit, also when the body raised. -/
def classSchema (env : Env) (b : Option BaseSchema) (fuel : Nat) (c : Clazz)
    (stack : List Seen) : CRes Schema × List Seen :=
  let pre : Except Err Clazz :=
    match c with
    | .plain d => if d.isDataclass then .ok c else convertClazz c
    | .galias d _ => if d.isDataclass then .ok c else convertClazz c
  match pre with
  | .error e => ((.error e, []), stack)
  | .ok c2 =>
    let stack1 := pushCtx [] stack
    let r := internalClassSchema env b fuel (topCtx stack1) c2
    (r, popCtx stack1)

/-! ## Loading data through a compiled schema

`Modelled from the spec:` the external schema framework's field
construction and `load` contract (§6 of the spec; the `marshmallow`
package and the repository's `union_field`/`collection_field` modules
are collaborators whose sources are not in the snapshot).  A missing
key is an error for a required field and otherwise yields the field's
load-default (or omits the attribute); an explicit null is accepted
exactly when the field allows none (which, per marshmallow's documented
rule, defaults to true exactly when the load-default is null); any
other value is checked against the field's shape; a union field tries
each alternative in declared order and accepts the first match.
Validation errors are reported per field name. -/

/-- Effective `required` of a constructed field (marshmallow's
constructor default is `False`). -/
def effRequired (m : Meta) : Bool := m.required.getD false

/-- Effective `allow_none`: defaults to true iff `load_default` is
`None`. -/
def effAllowNone (m : Meta) : Bool :=
  m.allowNone.getD (m.loadDefault == some Value.vnull)

/-- Key lookup in the input mapping. -/
def lookupData : List (String × Value) → String → Option Value
  | [], _ => none
  | (k, v) :: rest, n => if k = n then some v else lookupData rest n

def dictToPairs : ValueDict → List (String × Value)
  | .nil => []
  | .cons k v rest => (k, v) :: dictToPairs rest

def pairsToDict : List (String × Value) → ValueDict
  | [] => .nil
  | (k, v) :: rest => .cons k v (pairsToDict rest)

mutual

/-- Deserialize one present, non-null value against a field. -/
def loadVal : Nat → Field → Value → Except String Value
  | 0, _, _ => .error "recursion limit"
  | _+1, .integer _, v =>
    match v with
    | .vint _ => .ok v
    | _ => .error "Not a valid integer."
  | _+1, .stringF _, v =>
    match v with
    | .vstr _ => .ok v
    | _ => .error "Not a valid string."
  | _+1, .floatF _, v =>
    match v with
    | .vint _ => .ok v
    | _ => .error "Not a valid number."
  | _+1, .boolean _, v =>
    match v with
    | .vbool _ => .ok v
    | _ => .error "Not a valid boolean."
  | _+1, .raw _, v => .ok v
  | fuel+1, .listF ch _, v =>
    match v with
    | .vlist xs => (loadList fuel ch xs).map .vlist
    | _ => .error "Not a valid list."
  | fuel+1, .seqF ch _, v =>
    match v with
    | .vlist xs => (loadList fuel ch xs).map .vlist
    | _ => .error "Not a valid list."
  | fuel+1, .setF ch _ _, v =>
    match v with
    | .vlist xs => (loadList fuel ch xs).map .vlist
    | _ => .error "Not a valid list."
  | fuel+1, .dictF kf vf _, v =>
    match v with
    | .vdict xs => (loadDict fuel kf vf xs).map .vdict
    | _ => .error "Not a valid mapping type."
  | fuel+1, .unionF alts _, v => loadUnion fuel alts v
  | _+1, .nestedName _ _, _ =>
    .error "unresolved forward schema reference"
  | fuel+1, .nestedSchema _ flds _, v =>
    match v with
    | .vdict xs =>
      match loadFields fuel flds (dictToPairs xs) with
      | .error _ => .error "Invalid value."
      | .ok ps => .ok (.vdict (pairsToDict ps))
    | _ => .error "Invalid input type."

def loadList : Nat → Field → ValueList → Except String ValueList
  | 0, _, _ => .error "recursion limit"
  | _+1, _, .nil => .ok .nil
  | fuel+1, ch, .cons x xs =>
    match loadVal fuel ch x with
    | .error e => .error e
    | .ok y =>
      match loadList fuel ch xs with
      | .error e => .error e
      | .ok ys => .ok (.cons y ys)

def loadDict : Nat → Field → Field → ValueDict → Except String ValueDict
  | 0, _, _, _ => .error "recursion limit"
  | _+1, _, _, .nil => .ok .nil
  | fuel+1, kf, vf, .cons k v xs =>
    match loadVal fuel vf v with
    | .error e => .error e
    | .ok v2 =>
      match loadDict fuel kf vf xs with
      | .error e => .error e
      | .ok ys => .ok (.cons k v2 ys)

/-- A union field tries each alternative in declared order; the first
alternative that accepts the value wins, and the value is rejected when
every alternative rejects it. -/
def loadUnion : Nat → List (PyType × Field) → Value → Except String Value
  | 0, _, _ => .error "recursion limit"
  | _+1, [], _ => .error "no alternative of the union matched the value"
  | fuel+1, (_, f) :: rest, v =>
    match loadFieldValue fuel f (some v) with
    | .ok (some w) => .ok w
    | _ => loadUnion fuel rest v

/-- Deserialize one key's value (or its absence) against a field:
`.ok none` means the attribute is omitted from the result. -/
def loadFieldValue : Nat → Field → Option Value → Except String (Option Value)
  | 0, _, _ => .error "recursion limit"
  | _+1, f, none =>
    if effRequired f.meta then .error "Missing data for required field."
    else .ok f.meta.loadDefault
  | fuel+1, f, some v =>
    match v with
    | .vnull =>
      if effAllowNone f.meta then .ok (some .vnull)
      else .error "Field may not be null."
    | _ => (loadVal fuel f v).map some

/-- Load a whole field list against the input mapping, collecting every
per-field error. -/
def loadFields : Nat → List (String × Field) → List (String × Value) →
    Except (List (String × String)) (List (String × Value))
  | 0, _, _ => .error [("", "recursion limit")]
  | _+1, [], _ => .ok []
  | fuel+1, (n, f) :: rest, data =>
    let head := loadFieldValue fuel f (lookupData data n)
    match loadFields fuel rest data with
    | .error es =>
      match head with
      | .error e => .error ((n, e) :: es)
      | .ok _ => .error es
    | .ok ps =>
      match head with
      | .error e => .error [(n, e)]
      | .ok none => .ok ps
      | .ok (some v) => .ok ((n, v) :: ps)

end

/-- A constructed record instance: the schema's `load` ends with
`clazz(**loaded)` (the construction rule of the generated base
schema). -/
structure Inst where
  className : String
  attrs : List (String × Value)
  deriving Repr, DecidableEq

/-- `schema().load(data)` for a single (non-many) input. -/
def Schema.load (s : Schema) (fuel : Nat) (data : List (String × Value)) :
    Except (List (String × String)) Inst :=
  (loadFields fuel s.fields data).map (fun ps => { className := s.className, attrs := ps })

end MarshmallowDataclass2

namespace MarshmallowDataclass2

/-! ## The compiled-schema memo

`_internal_class_schema` is wrapped in
`@lru_cache(maxsize=MAX_CLASS_SCHEMA_CACHE_SIZE)` (lines 104-105 and
581).  The cache maps the positional argument pair
`(clazz, base_schema)` — both by identity — to the schema object built
for it; `functools.lru_cache` returns the stored object on a hit
(refreshing its recency) and on a miss computes, stores and, once the
bound is exceeded, evicts the least recently used entry.  The model
identifies the two arguments by name and abstracts the computed schema
to a freshly allocated object (each uncached computation creates a new
schema class via `type(...)`, represented by a fresh allocation
counter). -/

def MAX_CLASS_SCHEMA_CACHE_SIZE : Nat := 1024

/-- The memo key: the identity of the record type paired with the
identity of the base schema (`None` allowed). -/
abbrev CacheKey := String × Option String

/-- A compiled schema object, distinguished by its allocation id. -/
structure SchemaObj where
  key : CacheKey
  objId : Nat
  deriving Repr, DecidableEq

/-- The cache: entries in most-recently-used-first order, plus the
allocation counter for fresh schema objects. -/
structure CacheState where
  entries : List (CacheKey × SchemaObj) := []
  nextId : Nat := 0
  deriving Repr, DecidableEq

def cacheFind : List (CacheKey × SchemaObj) → CacheKey → Option SchemaObj
  | [], _ => none
  | (k, v) :: rest, k2 => if k = k2 then some v else cacheFind rest k2

def cacheErase : List (CacheKey × SchemaObj) → CacheKey → List (CacheKey × SchemaObj)
  | [], _ => []
  | (k, v) :: rest, k2 => if k = k2 then rest else (k, v) :: cacheErase rest k2

/-- One call of the memoized `_internal_class_schema`: on a hit return
the cached schema object and refresh its recency; on a miss build a
fresh schema object, insert it as most recent, and truncate to the size
bound (dropping the least recently used entry). -/
def cachedCompile (k : CacheKey) (st : CacheState) : SchemaObj × CacheState :=
  match cacheFind st.entries k with
  | some v => (v, { st with entries := (k, v) :: cacheErase st.entries k })
  | none =>
    let v : SchemaObj := { key := k, objId := st.nextId }
    (v, { entries := ((k, v) :: st.entries).take MAX_CLASS_SCHEMA_CACHE_SIZE,
          nextId := st.nextId + 1 })

/-! ## The decorator-attached schema accessor for generic records -/

/-- The target of the `dataclass`/`add_schema` decorator: a class, a
generic alias, or something that is not a type at all. -/
inductive Decorand
  | cls (d : ClassDecl)
  | genericAlias (d : ClassDecl) (args : PyTypeList)
  | notAType
  deriving Repr, DecidableEq

def genericAliasErrMsg : String :=
  "decorator does not support generic aliases (hint: use class_schema directly instead)"

/-- `_check_decorated_type` (lines 198-207): the decorator accepts only
a class and rejects a generic alias (`is_generic_alias` comes from
`generic_resolver`; per the spec a generic alias is a parametrized
generic type). -/
def checkDecoratedType : Decorand → Except Err Unit
  | .notAType => .error (.typeError "expected a class not the given object")
  | .genericAlias _ _ => .error (.typeError genericAliasErrMsg)
  | .cls _ => .ok ()

/-- A schema object as produced by one `class_schema` call inside
`LazyGenericSchema.get_schema`: the compilation outcome tagged with a
fresh allocation id (object identity). -/
structure GSchemaObj where
  objId : Nat
  result : Except Err Schema
  deriving Repr

/-- The state of a `LazyGenericSchema` instance (the `Schema` attribute
attached to a decorated generic record): its private
`__resolved_generic_schemas` mapping from the specialization's type
argument tuple to the schema computed for it. -/
structure LazyGenericSchema where
  resolvedGenericSchemas : List (PyTypeList × GSchemaObj) := []
  deriving Repr

def lgsFind : List (PyTypeList × GSchemaObj) → PyTypeList → Option GSchemaObj
  | [], _ => none
  | (a, s) :: rest, args => if a = args then some s else lgsFind rest args

/-- `LazyGenericSchema.get_schema` (lines 139-150): look the instance's
type-argument tuple up in the private memo; on a miss call
`class_schema` on the specialization (against an empty context stack of
the calling thread) and store the resulting schema object under the
tuple. -/
def LazyGenericSchema.getSchema (env : Env) (b : Option BaseSchema) (fuel : Nat)
    (g : ClassDecl) (self : LazyGenericSchema) (instanceArgs : PyTypeList)
    (nextId : Nat) : GSchemaObj × LazyGenericSchema × Nat :=
  match lgsFind self.resolvedGenericSchemas instanceArgs with
  | some s => (s, self, nextId)
  | none =>
    let r := (classSchema env b fuel (.galias g instanceArgs) []).1
    let s : GSchemaObj := { objId := nextId, result := r.1 }
    (s, { resolvedGenericSchemas := (instanceArgs, s) :: self.resolvedGenericSchemas },
     nextId + 1)

/-- `LazyGenericSchema.__call__` (lines 117-124): invoking the `Schema`
attribute of a generic record always raises, because the accessor
cannot know the run-time type arguments. -/
def LazyGenericSchema.callSchema (_self : LazyGenericSchema) : Except Err Schema :=
  .error (.typeError genericAliasErrMsg)

/-- `LazyGenericSchema.__get__` (lines 126-137): class-level attribute
access (`instance is None and cls is not None`) returns the descriptor
itself; access through an instance raises. -/
def LazyGenericSchema.descGet (self : LazyGenericSchema)
    (inst : Option Inst) (cls : Option ClassDecl) :
    Except Err LazyGenericSchema :=
  match inst, cls with
  | none, some _ => .ok self
  | _, _ => .error (.typeError genericAliasErrMsg)

end MarshmallowDataclass2

namespace MarshmallowDataclass2

/-! ## Statement apparatus

Closed-form descriptions of the compiler's output on restricted
families of field types, used to state the theorems below.  These are
claim-side formalizations: the theorems prove that the compiler
definitions above agree with them. -/

/-- Metadata of a field synthesized with no default, no user metadata,
for a non-optional type: required. -/
def mdRequired : Meta := { required := some true }

/-- Metadata of a field synthesized with no default, no user metadata,
for an optional type: not required, nullable, null dump- and
load-defaults. -/
def mdOptional : Meta :=
  { required := some false, allowNone := some true,
    dumpDefault := some .vnull, loadDefault := some .vnull }

/-- Primitive field types (no class references at all). -/
def primShapes : List PyType := [.pint, .pstr, .pfloat, .pbool, .pany]

/-- Field types of a record `r` that mention no class other than `r`
itself: primitives, `Any`, and the two self-referential shapes of the
claims, `Optional[r]` and `List[r]`. -/
def selfRefShapes (r : String) : List PyType :=
  primShapes ++ [.punion (.cons (.ref r) (.cons .pnone .nil)), .plist (.ref r)]

/-- The field the compiler synthesizes for a `selfRefOk` type declared
with no default and empty metadata, while `r` is registered in
`seen_classes`: both self-referential shapes resolve to the forward
reference `nestedName r`. -/
def canonField (r : String) : PyType → Field
  | .pint => .integer mdRequired
  | .pstr => .stringF mdRequired
  | .pfloat => .floatF mdRequired
  | .pbool => .boolean mdRequired
  | .pany => .raw { required := some true, allowNone := some true }
  | .punion (.cons (.ref _) (.cons .pnone .nil)) => .nestedName r mdOptional
  | .plist (.ref _) => .listF (.nestedName r mdRequired) mdRequired
  | _ => .raw {}

/-! ### Concrete inputs used by the claim theorems and witnesses -/

/-- A generic record declaration used as a concrete counterexample
input. -/
def genClassDecl : ClassDecl := { name := "GenClass", params := ["T"] }

/-- A concrete full cache used by the C1 witness: 1023 recently used
entries for `("A", None)` followed by the least recently used entry
`("Old", None)`. -/
def c1FullEntries : List (CacheKey × SchemaObj) :=
  List.replicate 1023 ((("A", none) : CacheKey),
    ({ key := ("A", none), objId := 0 } : SchemaObj)) ++
    [(("Old", none), { key := ("Old", none), objId := 1 })]

/-- The declared type `Optional[str] = Union[str, None]`. -/
def optionalStr : PyType := .punion (.cons .pstr (.cons .pnone .nil))

/-- A record `cn` with the single attribute `xn : Optional[str]`, no
default, no metadata. -/
def optStrClass (cn xn : String) : ClassDecl :=
  { name := cn, fields := [{ name := xn, type := optionalStr }] }

/-- The same record with field metadata `allow_none=False`. -/
def optStrNoNoneClass (cn xn : String) : ClassDecl :=
  { name := cn,
    fields := [{ name := xn, type := optionalStr,
                 metadata := { allowNone := some false } }] }

/-- The metadata synthesized for `Optional[str]` under
`allow_none=False`: still not required with null defaults, but
null-rejecting. -/
def mdOptionalNoNone : Meta :=
  { required := some false, allowNone := some false,
    dumpDefault := some .vnull, loadDefault := some .vnull }

/-- The declared type `Union[int, str]`. -/
def unionIntStr : PyType := .punion (.cons .pint (.cons .pstr .nil))

/-- The field synthesized for `Union[int, str]` (no default, no user
metadata): a tagged-union field pairing each alternative's field with
its originating type, in declared order. -/
def unionIntStrField : Field :=
  .unionF [(.pint, .integer mdRequired), (.pstr, .stringF mdRequired)] mdRequired

/-- A generic record `G(Generic[T])` with one field `data: T`. -/
def genericDataClass : ClassDecl :=
  { name := "G", params := ["T"], fields := [{ name := "data", type := .tyvar "T" }] }

/-- The schema compiled for `G[int]`. -/
def gIntSchema : Schema := { className := "G", fields := [("data", .integer mdRequired)] }

/-- The schema compiled for `G[str]`. -/
def gStrSchema : Schema := { className := "G", fields := [("data", .stringF mdRequired)] }

/-- A concrete self-referential record used by the C2 witness:
`R { next: Optional[R], items: List[R] }`. -/
def selfRefDemo : ClassDecl :=
  { name := "R",
    fields := [{ name := "next",
                 type := .punion (.cons (.ref "R") (.cons .pnone .nil)) },
               { name := "items", type := .plist (.ref "R") }] }

/-- A concrete non-dataclass whose field type is a bare type variable,
used by the C3 witness. -/
def unboundDemo : ClassDecl :=
  { name := "B", fields := [{ name := "y", type := .tyvar "T" }],
    isDataclass := false }

/-- A concrete non-dataclass, not convertible either, used by the C4
witness. -/
def notConvertibleDemo : ClassDecl :=
  { name := "M", isDataclass := false, convertible := false }

end MarshmallowDataclass2

namespace MarshmallowDataclass2

/-! ## Claim C9 — bare container normalization -/

/-- Claim C9 (counterexample): the claim quantifies over every bare
container type, but bare `tuple` — a member of `CONTAINER_TYPES` — is
not normalized by `_container_type_add_any`: it passes through
unchanged and field synthesis then falls through to the nested-record
branch, where the implicit dataclass conversion fails with a
`TypeError`, instead of behaving as a tuple of `Any`. -/
theorem C9_counterexample :
    containerTypeAddAny .bareTuple = .bareTuple ∧
    inContainerTypes .bareTuple = true ∧
    (fieldForSchema [] none 5 [] .bareTuple none {}).1 =
      .error (.typeError "tuple is not a dataclass and cannot be turned into one.") :=
  ⟨rfl, rfl, rfl⟩

/-- Claim C9 (amended): for every bare container type handled by
`_container_type_add_any` — `list`, `dict`, `Mapping`, `Sequence`,
`set`, `frozenset`, but not `tuple` — field synthesis treats the bare
type exactly as its `Any`-parametrized form before any further
dispatch: the normalization equations hold, and synthesizing a field
for the bare type yields the same result as for the parametrized type,
for every default and metadata. -/
theorem C9_bare_containers_treated_as_any (env : Env) (b : Option BaseSchema)
    (fuel : Nat) (seen : Seen) (dflt : Option Value) (md : Meta) :
    containerTypeAddAny .bareList = .plist .pany ∧
    containerTypeAddAny .bareDict = .pdict .pany .pany ∧
    containerTypeAddAny .bareSet = .pset .pany ∧
    containerTypeAddAny .bareFrozenset = .pfrozenset .pany ∧
    containerTypeAddAny .bareSequence = .psequence .pany ∧
    containerTypeAddAny .bareMapping = .pmapping .pany .pany ∧
    fieldForSchema env b fuel seen .bareList dflt md =
      fieldForSchema env b fuel seen (.plist .pany) dflt md ∧
    fieldForSchema env b fuel seen .bareDict dflt md =
      fieldForSchema env b fuel seen (.pdict .pany .pany) dflt md ∧
    fieldForSchema env b fuel seen .bareSet dflt md =
      fieldForSchema env b fuel seen (.pset .pany) dflt md := by
  refine ⟨rfl, rfl, rfl, rfl, rfl, rfl, ?_, ?_, ?_⟩ <;>
    cases fuel with
    | zero => rfl
    | succ m =>
      cases dflt <;>
        simp [fieldForSchema, applyDefaultPolicy, isOptionalType,
          containerTypeAddAny, inContainerTypes, fieldByType, defaultTypeMapping]

/-! ## Claim C8 — the decorator and generic records -/

/-- Claim C8 (counterexample): accessing the `Schema` attribute at
class level on a non-specialized generic record does not raise:
`LazyGenericSchema.__get__` with `instance is None` and a class returns
the descriptor itself (only invoking it, or accessing it through an
instance, raises `TypeError`). -/
theorem C8_counterexample :
    LazyGenericSchema.descGet {} none (some genClassDecl) = .ok {} := rfl

/-- Claim C8 (amended): decorating a generic alias raises `TypeError`
(`_check_decorated_type`), as does decorating a non-type; invoking the
decorator-attached `Schema` accessor of a generic record raises
`TypeError` (it cannot know the run-time type arguments), and so does
accessing it through an instance; but bare class-level attribute access
returns the lazy accessor object itself without raising. -/
theorem C8_generic_schema_accessor (d : ClassDecl) (args : PyTypeList)
    (s : LazyGenericSchema) (i : Inst) (c : Option ClassDecl) :
    checkDecoratedType (.genericAlias d args) = .error (.typeError genericAliasErrMsg) ∧
    checkDecoratedType .notAType =
      .error (.typeError "expected a class not the given object") ∧
    s.callSchema = .error (.typeError genericAliasErrMsg) ∧
    s.descGet (some i) c = .error (.typeError genericAliasErrMsg) ∧
    s.descGet none none = .error (.typeError genericAliasErrMsg) ∧
    s.descGet none (some d) = .ok s := by
  refine ⟨rfl, rfl, rfl, ?_, rfl, rfl⟩
  cases c <;> rfl

/-! ## Claim C10 — context stack discipline -/

/-- Claim C10: every top-level `class_schema` call pushes a fresh
resolution context and pops it on the way out, also when compilation
raises: the stack returned has exactly its prior contents, and the
call's outcome is independent of whatever contexts were on the stack
before (no in-progress `seen_classes` state leaks between top-level
compilations on the same thread). -/
theorem C10_class_schema_stack_balanced (env : Env) (b : Option BaseSchema)
    (fuel : Nat) (c : Clazz) (stack stack2 : List Seen) :
    (classSchema env b fuel c stack).2 = stack ∧
    (classSchema env b fuel c stack).1 = (classSchema env b fuel c stack2).1 := by
  -- on an early conversion failure the stack is never pushed; otherwise
  -- `popCtx (pushCtx [] stack) = stack` definitionally
  cases c <;>
    simp only [classSchema, pushCtx, popCtx, topCtx] <;>
    split <;>
    exact ⟨rfl, rfl⟩

end MarshmallowDataclass2

namespace MarshmallowDataclass2

/-! ## Claim C1 — the compiled-schema memo -/

theorem cacheFind_cons_self (k : CacheKey) (v : SchemaObj)
    (l : List (CacheKey × SchemaObj)) : cacheFind ((k, v) :: l) k = some v := by
  simp [cacheFind]

theorem cacheErase_length (l : List (CacheKey × SchemaObj)) (k : CacheKey)
    (v : SchemaObj) (h : cacheFind l k = some v) :
    (cacheErase l k).length + 1 = l.length := by
  induction l with
  | nil => simp [cacheFind] at h
  | cons e rest ih =>
    obtain ⟨k1, v1⟩ := e
    by_cases hk : k1 = k
    · simp [cacheErase, hk]
    · simp only [cacheFind] at h
      rw [if_neg hk] at h
      simp only [cacheErase]
      rw [if_neg hk]
      simpa using ih h

theorem cacheFind_mem (l : List (CacheKey × SchemaObj)) (k : CacheKey)
    (v : SchemaObj) (h : cacheFind l k = some v) : (k, v) ∈ l := by
  induction l with
  | nil => simp [cacheFind] at h
  | cons e rest ih =>
    obtain ⟨k1, v1⟩ := e
    by_cases hk : k1 = k
    · subst hk
      simp only [cacheFind, eq_self_iff_true, if_true, Option.some.injEq] at h
      simp [h]
    · simp only [cacheFind] at h
      rw [if_neg hk] at h
      exact List.mem_cons_of_mem _ (ih h)

theorem cacheErase_subset (l : List (CacheKey × SchemaObj)) (k : CacheKey) :
    ∀ e ∈ cacheErase l k, e ∈ l := by
  induction l with
  | nil =>
    intro e he
    simpa [cacheErase] using he
  | cons p rest ih =>
    intro e he
    obtain ⟨k1, v1⟩ := p
    by_cases hk : k1 = k
    · simp only [cacheErase] at he
      rw [if_pos hk] at he
      exact List.mem_cons_of_mem _ he
    · simp only [cacheErase] at he
      rw [if_neg hk] at he
      rcases List.mem_cons.1 he with h | h
      · exact h ▸ List.mem_cons_self _ _
      · exact List.mem_cons_of_mem _ (ih _ h)

/-- Claim C1: the compiled-schema memo around `_internal_class_schema`
is keyed by the `(record type, base schema)` identity pair; compiling
the same pair twice returns the identical schema object; the memo never
exceeds `MAX_CLASS_SCHEMA_CACHE_SIZE = 1024` entries; and when a miss
lands in a full cache, exactly the least recently used (oldest-unused)
entry is evicted while every more recently used entry survives in
order. -/
theorem C1_cache_memoized_bounded_lru (k : CacheKey) (st : CacheState) :
    ((cachedCompile k (cachedCompile k st).2).1 = (cachedCompile k st).1) ∧
    (st.entries.length ≤ MAX_CLASS_SCHEMA_CACHE_SIZE →
      (cachedCompile k st).2.entries.length ≤ MAX_CLASS_SCHEMA_CACHE_SIZE) ∧
    ((∀ e ∈ st.entries, e.2.key = e.1) →
      ((cachedCompile k st).1.key = k ∧
       ∀ e ∈ (cachedCompile k st).2.entries, e.2.key = e.1)) ∧
    (∀ init kL vL, st.entries = init ++ [(kL, vL)] →
      init.length + 1 = MAX_CLASS_SCHEMA_CACHE_SIZE →
      cacheFind st.entries k = none →
      (cachedCompile k st).2.entries =
        (k, { key := k, objId := st.nextId }) :: init) := by
  have hmax : MAX_CLASS_SCHEMA_CACHE_SIZE = 1023 + 1 := rfl
  cases hfind : cacheFind st.entries k with
  | some v =>
    refine ⟨?_, ?_, ?_, ?_⟩
    · simp [cachedCompile, hfind, cacheFind_cons_self]
    · intro hlen
      have := cacheErase_length st.entries k v hfind
      simp only [cachedCompile, hfind]
      simpa [this] using hlen
    · intro hwf
      refine ⟨?_, ?_⟩
      · have := hwf _ (cacheFind_mem _ _ _ hfind)
        simpa [cachedCompile, hfind] using this
      · simp only [cachedCompile, hfind]
        intro e he
        rcases List.mem_cons.1 he with h | h
        · subst h
          exact hwf _ (cacheFind_mem _ _ _ hfind)
        · exact hwf _ (cacheErase_subset _ _ _ h)
    · intro init kL vL _ _ hnone
      exact absurd hnone (by simp)
  | none =>
    refine ⟨?_, ?_, ?_, ?_⟩
    · simp only [cachedCompile, hfind, hmax, List.take_succ_cons]
      simp [cacheFind_cons_self]
    · intro _
      simp only [cachedCompile, hfind]
      simpa using List.length_take_le _ _
    · intro hwf
      refine ⟨by simp [cachedCompile, hfind], ?_⟩
      simp only [cachedCompile, hfind]
      intro e he
      have he2 := List.take_subset _ _ he
      rcases List.mem_cons.1 he2 with h | h
      · subst h; rfl
      · exact hwf _ h
    · intro init kL vL hsplit hlen _
      have h1023 : init.length = 1023 := by omega
      simp only [cachedCompile, hfind]
      rw [hsplit, hmax, List.take_succ_cons, ← h1023, List.take_left]

end MarshmallowDataclass2

namespace MarshmallowDataclass2

theorem c1FullEntries_miss : cacheFind c1FullEntries ("City", none) = none := by
  have h : ∀ n, cacheFind
      (List.replicate n ((("A", none) : CacheKey),
        ({ key := ("A", none), objId := 0 } : SchemaObj)) ++
        [(("Old", none), { key := ("Old", none), objId := 1 })]) ("City", none) = none := by
    intro n
    induction n with
    | zero => simp [cacheFind]
    | succ m ih =>
      rw [List.replicate_succ, List.cons_append]
      simpa [cacheFind] using ih
  exact h 1023

/-- Witness for C1 at a concrete full cache: the fresh key
`("City", none)` misses, the least recently used entry `("Old", none)`
is evicted while the 1023 more recent entries survive, and compiling
the same key twice returns the identical schema object. -/
theorem C1_witness :
    ((cachedCompile ("City", none)
        (cachedCompile ("City", none) { entries := c1FullEntries, nextId := 7 }).2).1 =
      (cachedCompile ("City", none) { entries := c1FullEntries, nextId := 7 }).1) ∧
    ((cachedCompile ("City", none) { entries := c1FullEntries, nextId := 7
        }).2.entries.length ≤ MAX_CLASS_SCHEMA_CACHE_SIZE) ∧
    ((cachedCompile ("City", none) { entries := c1FullEntries, nextId := 7 }).2.entries =
      (("City", none), { key := ("City", none), objId := 7 }) ::
        List.replicate 1023 ((("A", none) : CacheKey),
          ({ key := ("A", none), objId := 0 } : SchemaObj))) := by
  have h := C1_cache_memoized_bounded_lru ("City", none)
    { entries := c1FullEntries, nextId := 7 }
  refine ⟨h.1, h.2.1 ?_, h.2.2.2 _ _ _ rfl ?_ c1FullEntries_miss⟩
  · show c1FullEntries.length ≤ MAX_CLASS_SCHEMA_CACHE_SIZE
    rw [c1FullEntries, List.length_append, List.length_replicate]
    norm_num [MAX_CLASS_SCHEMA_CACHE_SIZE]
  · rw [List.length_replicate]
    rfl

end MarshmallowDataclass2

namespace MarshmallowDataclass2

/-! ## Claim C5 — optional-field policy -/

/-- Claim C5: for every record (any class name, any field name) with an
attribute `x : Optional[str]` and no explicit default, the synthesized
field is a not-required string field with null load-default and null
dump-default, so `load({})` yields `x = None`; and with field metadata
`allow_none=False`, `load({"x": None})` raises a validation error while
`load({})` still yields `x = None`. -/
theorem C5_optional_str_policy (cn xn : String) (env : Env) (m k : Nat) :
    (internalClassSchema env none (m + 4) [] (.plain (optStrClass cn xn)) =
      (.ok { className := cn, fields := [(xn, .stringF mdOptional)] }, [])) ∧
    (Schema.load { className := cn, fields := [(xn, .stringF mdOptional)] }
        (k + 2) [] =
      .ok { className := cn, attrs := [(xn, .vnull)] }) ∧
    (internalClassSchema env none (m + 4) [] (.plain (optStrNoNoneClass cn xn)) =
      (.ok { className := cn, fields := [(xn, .stringF mdOptionalNoNone)] }, [])) ∧
    (Schema.load { className := cn, fields := [(xn, .stringF mdOptionalNoNone)] }
        (k + 2) [(xn, .vnull)] =
      .error [(xn, "Field may not be null.")]) ∧
    (Schema.load { className := cn, fields := [(xn, .stringF mdOptionalNoNone)] }
        (k + 2) [] =
      .ok { className := cn, attrs := [(xn, .vnull)] }) := by
  have hlook : lookupData [(xn, Value.vnull)] xn = some .vnull := by
    simp [lookupData]
  have hlook0 : lookupData [] xn = none := rfl
  have hnull : loadFieldValue (k + 1) (.stringF mdOptionalNoNone) (some .vnull) =
      .error "Field may not be null." := by
    simp [loadFieldValue, effAllowNone, Field.meta, mdOptionalNoNone]
  refine ⟨?_, ?_, ?_, ?_, ?_⟩
  · simp [internalClassSchema, dataclassFields, fieldsLoop, fieldForSchema,
      applyDefaultPolicy, optionalMeta, isOptionalType, PyTypeList.contains,
      removeNone, containerTypeAddAny, inContainerTypes, fieldByType,
      defaultTypeMapping, mkPrimField, optionalStr, mdOptional,
      optStrClass, Except.map, Clazz.displayName, Clazz.origDecl]
  · simp [Schema.load, loadFields, hlook0, loadFieldValue, effRequired,
      effAllowNone, Field.meta, Except.map, mdOptional]
  · simp [internalClassSchema, dataclassFields, fieldsLoop, fieldForSchema,
      applyDefaultPolicy, optionalMeta, isOptionalType, PyTypeList.contains,
      removeNone, containerTypeAddAny, inContainerTypes, fieldByType,
      defaultTypeMapping, mkPrimField, optionalStr, mdOptionalNoNone,
      optStrNoNoneClass, Except.map, Clazz.displayName, Clazz.origDecl]
  · simp [Schema.load, loadFields, hlook, hnull, Except.map]
  · simp [Schema.load, loadFields, hlook0, loadFieldValue, effRequired,
      effAllowNone, Field.meta, Except.map, mdOptionalNoNone]

end MarshmallowDataclass2

namespace MarshmallowDataclass2

/-! ## Claim C6 — union-typed fields -/

/-- Claim C6: a union with exactly one non-null alternative
(`Union[T, None]`, i.e. `Optional[T]`) synthesizes the field for `T`
marked nullable/optional (not required, allow-none, null defaults);
a union with several non-null alternatives synthesizes a tagged-union
field that pairs each alternative's field with its originating type in
declared order, and that field accepts a value matching any alternative
and rejects all other values. -/
theorem C6_union_collapse_and_tagged_union (env : Env) (fuel m k : Nat)
    (seen : Seen) (t : PyType) (h : t ≠ .pnone) (n : Int) (s : String) :
    (fieldForSchema env none (fuel + 1) seen
        (.punion (.cons t (.cons .pnone .nil))) none {} =
      fieldForSchema env none fuel seen t none mdOptional) ∧
    (fieldForSchema env none (m + 4) seen unionIntStr none {} =
      (.ok unionIntStrField, [])) ∧
    (loadFieldValue (k + 6) unionIntStrField (some (.vint n)) =
      .ok (some (.vint n))) ∧
    (loadFieldValue (k + 6) unionIntStrField (some (.vstr s)) =
      .ok (some (.vstr s))) ∧
    (∀ v : Value, (∀ i : Int, v ≠ .vint i) → (∀ str : String, v ≠ .vstr str) →
      ∃ e, loadFieldValue (k + 6) unionIntStrField (some v) = .error e) := by
  refine ⟨?_, ?_, ?_, ?_, ?_⟩
  · cases t <;> first
      | exact absurd rfl h
      | simp [fieldForSchema, removeNone, applyDefaultPolicy, isOptionalType,
          PyTypeList.contains, optionalMeta, mdOptional, containerTypeAddAny,
          inContainerTypes, fieldByType, defaultTypeMapping]
  · simp [fieldForSchema, unionIntStr, unionIntStrField, unionAlts, removeNone,
      applyDefaultPolicy, isOptionalType, PyTypeList.contains, optionalMeta,
      mdRequired, containerTypeAddAny, inContainerTypes, fieldByType,
      defaultTypeMapping, mkPrimField, Except.map]
  · simp [loadFieldValue, loadVal, loadUnion, unionIntStrField, effAllowNone,
      effRequired, Field.meta, mdRequired, Except.map]
  · simp [loadFieldValue, loadVal, loadUnion, unionIntStrField, effAllowNone,
      effRequired, Field.meta, mdRequired, Except.map]
  · intro v hi hs
    cases v with
    | vint i => exact absurd rfl (hi i)
    | vstr str => exact absurd rfl (hs str)
    | vnull =>
      exact ⟨"Field may not be null.", by
        simp [loadFieldValue, effAllowNone, Field.meta, unionIntStrField, mdRequired]⟩
    | vbool bb =>
      exact ⟨"no alternative of the union matched the value", by
        simp [loadFieldValue, loadVal, loadUnion, unionIntStrField, effAllowNone,
          effRequired, Field.meta, mdRequired, Except.map]⟩
    | vlist xs =>
      exact ⟨"no alternative of the union matched the value", by
        simp [loadFieldValue, loadVal, loadUnion, unionIntStrField, effAllowNone,
          effRequired, Field.meta, mdRequired, Except.map]⟩
    | vdict xs =>
      exact ⟨"no alternative of the union matched the value", by
        simp [loadFieldValue, loadVal, loadUnion, unionIntStrField, effAllowNone,
          effRequired, Field.meta, mdRequired, Except.map]⟩

end MarshmallowDataclass2

namespace MarshmallowDataclass2

/-- Witness for C6 at `T = int`: `Union[int, None]` synthesizes the
field for `int` with the nullable/optional metadata. -/
theorem C6_witness :
    fieldForSchema [] none 3 [] (.punion (.cons .pint (.cons .pnone .nil))) none {} =
      fieldForSchema [] none 2 [] .pint none mdOptional :=
  (C6_union_collapse_and_tagged_union [] 2 0 0 [] .pint (by decide) 0 "").1

end MarshmallowDataclass2

namespace MarshmallowDataclass2

/-! ## Claim C7 — per-argument-tuple schemas of generic records -/

/-- Claim C7: the decorator-attached accessor of a parametrized generic
record memoizes one schema per distinct type-argument tuple — an
immediate second request for the same tuple returns the identical
schema object without recompiling or allocating — and distinct argument
tuples yield behaviourally different schemas: data valid under `G[int]`
(`{"data": n}`) loads under the `G[int]` schema and is rejected only by
the `G[str]` schema. -/
theorem C7_generic_schema_per_args (env : Env) (b : Option BaseSchema)
    (fuel : Nat) (g : ClassDecl) (self : LazyGenericSchema) (args : PyTypeList)
    (nid k : Nat) (n : Int) :
    (LazyGenericSchema.getSchema env b fuel g
        (LazyGenericSchema.getSchema env b fuel g self args nid).2.1 args
        (LazyGenericSchema.getSchema env b fuel g self args nid).2.2 =
      ((LazyGenericSchema.getSchema env b fuel g self args nid).1,
       (LazyGenericSchema.getSchema env b fuel g self args nid).2.1,
       (LazyGenericSchema.getSchema env b fuel g self args nid).2.2)) ∧
    ((LazyGenericSchema.getSchema [genericDataClass] none 10 genericDataClass {}
        (.cons .pint .nil) 0).1.result = .ok gIntSchema) ∧
    (gIntSchema.load (k + 3) [("data", .vint n)] =
      .ok { className := "G", attrs := [("data", .vint n)] }) ∧
    ((LazyGenericSchema.getSchema [genericDataClass] none 10 genericDataClass {}
        (.cons .pstr .nil) 0).1.result = .ok gStrSchema) ∧
    (gStrSchema.load (k + 3) [("data", .vint n)] =
      .error [("data", "Not a valid string.")]) := by
  refine ⟨?_, rfl, ?_, rfl, ?_⟩
  · cases hfind : lgsFind self.resolvedGenericSchemas args with
    | some s => simp [LazyGenericSchema.getSchema, hfind]
    | none => simp [LazyGenericSchema.getSchema, hfind, lgsFind]
  · rfl
  · rfl

end MarshmallowDataclass2

namespace MarshmallowDataclass2

/-! ## Claim C2 — self-referential records -/

/-- Synthesizing a field for a primitive shape needs neither the
environment nor the context: the result is its canonical field. -/
theorem fieldForSchema_prim (env : Env) (seen : Seen) (r : String)
    (t : PyType) (ht : t ∈ primShapes) (m : Nat) :
    fieldForSchema env none (m + 1) seen t none {} =
      (.ok (canonField r t), []) := by
  simp only [primShapes, List.mem_cons, List.not_mem_nil, or_false] at ht
  rcases ht with rfl | rfl | rfl | rfl | rfl <;>
    simp [fieldForSchema, canonField, applyDefaultPolicy, isOptionalType,
      containerTypeAddAny, inContainerTypes, fieldByType, defaultTypeMapping,
      mkPrimField, mdRequired]

/-- While `R` is registered in the active context's `seen_classes`,
synthesizing a field for any of its self-referential shapes
(`Optional[R]`, `List[R]`) resolves the reference to the registered
display name — a `nestedName` forward reference — without recursing
into `_internal_class_schema`, and primitive shapes synthesize
normally. -/
theorem fieldForSchema_selfRefShape (env : Env) (R : ClassDecl) (t : PyType)
    (ht : t ∈ selfRefShapes R.name) (henv : envLookup env R.name = some R)
    (seen : Seen) (hseen : seenLookup seen (.plain R) = some R.name) (m : Nat) :
    fieldForSchema env none (m + 3) seen t none {} =
      (.ok (canonField R.name t), []) := by
  simp only [selfRefShapes, List.mem_append, List.mem_cons,
    List.not_mem_nil, or_false] at ht
  rcases ht with ht | rfl | rfl
  · exact fieldForSchema_prim env seen R.name t ht (m + 2)
  · simp [fieldForSchema, canonField, applyDefaultPolicy, isOptionalType,
      PyTypeList.contains, removeNone, optionalMeta, containerTypeAddAny,
      inContainerTypes, fieldByType, defaultTypeMapping, nestedFor,
      henv, hseen, mdOptional]
  · simp [fieldForSchema, canonField, applyDefaultPolicy, isOptionalType,
      containerTypeAddAny, inContainerTypes, fieldByType, defaultTypeMapping,
      nestedFor, henv, hseen, mdRequired, Except.map]

/-- Field-loop version of `fieldForSchema_selfRefShape`: a list of
defaultless, metadata-free fields whose types are all
primitive-or-self-referential synthesizes completely, in order, with no
warnings, given fuel beyond the list length. -/
theorem fieldsLoop_selfRefShapes (env : Env) (R : ClassDecl)
    (henv : envLookup env R.name = some R) (seen : Seen)
    (hseen : seenLookup seen (.plain R) = some R.name) :
    ∀ (flds : List DcField) (fuel : Nat),
      (∀ f ∈ flds, f.type ∈ selfRefShapes R.name ∧ f.default = none ∧
        f.metadata = {}) →
      flds.length + 3 ≤ fuel →
      fieldsLoop env none fuel seen flds =
        (.ok (flds.map (fun f => (f.name, canonField R.name f.type))), []) := by
  intro flds
  induction flds with
  | nil =>
    intro fuel _ hlen
    obtain ⟨m, rfl⟩ : ∃ m, fuel = m + 1 := ⟨fuel - 1, by omega⟩
    simp [fieldsLoop]
  | cons f rest ih =>
    intro fuel hall hlen
    simp only [List.length_cons] at hlen
    obtain ⟨m, rfl⟩ : ∃ m, fuel = (m + 3) + 1 := ⟨fuel - 4, by omega⟩
    have hf := hall f (List.mem_cons_self _ _)
    have hfield := fieldForSchema_selfRefShape env R f.type hf.1 henv seen hseen m
    have hrest := ih (m + 3) (fun g hg => hall g (List.mem_cons_of_mem _ hg))
      (by omega)
    simp [fieldsLoop, hf.2.1, hf.2.2, hfield, hrest]

/-- Claim C2: for every non-generic record `R` whose fields are
primitives or the self-referential shapes `Optional[R]` / `List[R]`
(declared without defaults or metadata), compiling `R` registers `R` in
the active context's `seen_classes` before resolving any field, so each
self-referential field resolves to the registered display name — the
`nestedName R` forward reference visible in `canonField` — instead of
recursing; hence the compilation terminates with the assembled schema
(any fuel beyond the field count suffices, because the self-reference
consumes no recursion depth). -/
theorem C2_self_referential_record_compiles (env : Env) (R : ClassDecl)
    (seen : Seen) (fuel : Nat)
    (hparams : R.params = []) (hdc : R.isDataclass = true)
    (henv : envLookup env R.name = some R)
    (hflds : ∀ f ∈ R.fields, f.type ∈ selfRefShapes R.name ∧ f.default = none ∧
      f.metadata = {})
    (hfuel : R.fields.length + 4 ≤ fuel) :
    internalClassSchema env none fuel seen (.plain R) =
      (.ok { className := R.name,
             fields := (R.fields.filter (fun f => f.init || R.includeNonInit)).map
               (fun f => (f.name, canonField R.name f.type)) }, []) := by
  obtain ⟨m, rfl⟩ : ∃ m, fuel = m + 1 := ⟨fuel - 1, by omega⟩
  have hdf : dataclassFields (.plain R) = .ok R.fields := by
    simp [dataclassFields, hparams, hdc]
  have hseen1 : seenLookup ((Clazz.plain R, R.name) :: seen)
      (.plain R) = some R.name := by
    simp [seenLookup]
  have hloop := fieldsLoop_selfRefShapes env R henv _ hseen1
    (R.fields.filter (fun f => f.init || R.includeNonInit)) m
    (fun f hf => hflds f (List.mem_of_mem_filter hf))
    (by
      have := List.length_filter_le (fun f => f.init || R.includeNonInit) R.fields
      omega)
  simp [internalClassSchema, hdf, Clazz.origDecl, Clazz.displayName, hloop,
    Except.map]

/-- Witness for C2: compiling the concrete self-referential record
terminates and both self-references resolve to the forward reference
`nestedName "R"`. -/
theorem C2_witness :
    internalClassSchema [selfRefDemo] none 6 [] (.plain selfRefDemo) =
      (.ok { className := "R",
             fields := [("next", .nestedName "R" mdOptional),
                        ("items", .listF (.nestedName "R" mdRequired) mdRequired)] },
       []) :=
  C2_self_referential_record_compiles [selfRefDemo] selfRefDemo [] 6
    rfl rfl (by decide) (by decide) (by decide)

end MarshmallowDataclass2

namespace MarshmallowDataclass2

/-! ## Claims C3 and C4 — error handling of `_internal_class_schema` -/

/-- Primitive-only fields synthesize completely with no warnings,
independently of the environment and the context. -/
theorem fieldsLoop_prims (env : Env) (r : String) (seen : Seen) :
    ∀ (flds : List DcField) (fuel : Nat),
      (∀ f ∈ flds, f.type ∈ primShapes ∧ f.default = none ∧ f.metadata = {}) →
      flds.length + 1 ≤ fuel →
      fieldsLoop env none fuel seen flds =
        (.ok (flds.map (fun f => (f.name, canonField r f.type))), []) := by
  intro flds
  induction flds with
  | nil =>
    intro fuel _ hlen
    obtain ⟨m, rfl⟩ : ∃ m, fuel = m + 1 := ⟨fuel - 1, by omega⟩
    simp [fieldsLoop]
  | cons f rest ih =>
    intro fuel hall hlen
    simp only [List.length_cons] at hlen
    obtain ⟨m, rfl⟩ : ∃ m, fuel = (m + 1) + 1 := ⟨fuel - 2, by omega⟩
    have hf := hall f (List.mem_cons_self _ _)
    have hfield := fieldForSchema_prim env seen r f.type hf.1 m
    have hrest := ih (m + 1) (fun g hg => hall g (List.mem_cons_of_mem _ hg))
      (by omega)
    simp [fieldsLoop, hf.2.1, hf.2.2, hfield, hrest]

/-- A non-generic dataclass with primitive-only fields compiles with no
warnings. -/
theorem internalClassSchema_prims (env : Env) (C : ClassDecl) (seen : Seen)
    (fuel : Nat) (hparams : C.params = []) (hdc : C.isDataclass = true)
    (hflds : ∀ f ∈ C.fields, f.type ∈ primShapes ∧ f.default = none ∧
      f.metadata = {})
    (hfuel : C.fields.length + 2 ≤ fuel) :
    internalClassSchema env none fuel seen (.plain C) =
      (.ok { className := C.name,
             fields := (C.fields.filter (fun f => f.init || C.includeNonInit)).map
               (fun f => (f.name, canonField C.name f.type)) }, []) := by
  obtain ⟨m, rfl⟩ : ∃ m, fuel = m + 1 := ⟨fuel - 1, by omega⟩
  have hdf : dataclassFields (.plain C) = .ok C.fields := by
    simp [dataclassFields, hparams, hdc]
  have hloop := fieldsLoop_prims env C.name ((Clazz.plain C, C.name) :: seen)
    (C.fields.filter (fun f => f.init || C.includeNonInit)) m
    (fun f hf => hflds f (List.mem_of_mem_filter hf))
    (by
      have := List.length_filter_le (fun f => f.init || C.includeNonInit) C.fields
      omega)
  simp [internalClassSchema, hdf, Clazz.origDecl, Clazz.displayName, hloop,
    Except.map]

/-- Filtering for eligibility keeps a prefix of `init=True` fields and
an `init=True` field intact. -/
theorem eligible_split (pre : List DcField) (x : DcField) (rest : List DcField)
    (inc : Bool) (hpre : ∀ f ∈ pre, f.init = true) (hx : x.init = true) :
    (pre ++ x :: rest).filter (fun f => f.init || inc) =
      pre ++ x :: rest.filter (fun f => f.init || inc) := by
  rw [List.filter_append]
  congr 1
  · exact List.filter_eq_self.mpr (fun f hf => by simp [hpre f hf])
  · rw [List.filter_cons_of_pos (by simp [hx])]

/-- The field loop raises `UnboundTypeVarError` unchanged when it
reaches a field whose declared type is a bare type variable, after any
prefix of primitive fields. -/
theorem fieldsLoop_unbound_prim (env : Env) (seen : Seen) :
    ∀ (pre : List DcField) (x : DcField) (rest : List DcField) (fuel : Nat)
      (v : String),
      (∀ f ∈ pre, f.type ∈ primShapes ∧ f.default = none ∧ f.metadata = {}) →
      x.type = .tyvar v →
      pre.length + 2 ≤ fuel →
      fieldsLoop env none fuel seen (pre ++ x :: rest) =
        (.error (.unboundTypeVar ("can not resolve type variable " ++ v)), []) := by
  intro pre
  induction pre with
  | nil =>
    intro x rest fuel v _ hx hlen
    obtain ⟨m, rfl⟩ : ∃ m, fuel = (m + 1) + 1 := ⟨fuel - 2, by omega⟩
    simp [fieldsLoop, hx, fieldForSchema]
  | cons f pre' ih =>
    intro x rest fuel v hall hx hlen
    simp only [List.length_cons] at hlen
    obtain ⟨m, rfl⟩ : ∃ m, fuel = (m + 1) + 1 := ⟨fuel - 2, by omega⟩
    have hf := hall f (List.mem_cons_self _ _)
    have hfield := fieldForSchema_prim env seen "" f.type hf.1 m
    have hrest := ih x rest (m + 1) v
      (fun g hg => hall g (List.mem_cons_of_mem _ hg)) hx (by omega)
    simp [List.cons_append, fieldsLoop, hf.2.1, hf.2.2, hfield, hrest]

/-- `_internal_class_schema` on a non-generic dataclass with an
eligible bare-type-variable field raises `UnboundTypeVarError`
unchanged. -/
theorem internalClassSchema_unbound_field (env : Env) (C : ClassDecl)
    (seen : Seen) (fuel : Nat) (v : String) (pre : List DcField) (x : DcField)
    (rest : List DcField)
    (hparams : C.params = []) (hdc : C.isDataclass = true)
    (hfields : C.fields = pre ++ x :: rest)
    (hpre : ∀ f ∈ pre, f.type ∈ primShapes ∧ f.default = none ∧
      f.metadata = {} ∧ f.init = true)
    (hx : x.type = .tyvar v) (hxinit : x.init = true)
    (hfuel : pre.length + 3 ≤ fuel) :
    internalClassSchema env none fuel seen (.plain C) =
      (.error (.unboundTypeVar ("can not resolve type variable " ++ v)), []) := by
  obtain ⟨m, rfl⟩ : ∃ m, fuel = m + 1 := ⟨fuel - 1, by omega⟩
  have hdf : dataclassFields (.plain C) = .ok C.fields := by
    simp [dataclassFields, hparams, hdc]
  have hsplit := eligible_split pre x rest C.includeNonInit
    (fun f hf => (hpre f hf).2.2.2) hxinit
  have hloop := fieldsLoop_unbound_prim env ((Clazz.plain C, C.name) :: seen)
    pre x (rest.filter (fun f => f.init || C.includeNonInit)) m v
    (fun f hf => ⟨(hpre f hf).1, (hpre f hf).2.1, (hpre f hf).2.2.1⟩) hx (by omega)
  simp [internalClassSchema, hdf, hfields, Clazz.origDecl, Clazz.displayName,
    hsplit, hloop, Except.map]

/-- The field loop, reaching a field of bare `tuple` type after a
prefix of primitive fields, fails with the descriptive `TypeError` of
the implicit conversion and keeps its conversion warning. -/
theorem fieldsLoop_bareTuple (env : Env) (seen : Seen) :
    ∀ (pre : List DcField) (x : DcField) (rest : List DcField) (fuel : Nat),
      (∀ f ∈ pre, f.type ∈ primShapes ∧ f.default = none ∧ f.metadata = {}) →
      x.type = .bareTuple →
      pre.length + 2 ≤ fuel →
      fieldsLoop env none fuel seen (pre ++ x :: rest) =
        (.error (.typeError "tuple is not a dataclass and cannot be turned into one."),
         [.conversionWarning "tuple"]) := by
  intro pre
  induction pre with
  | nil =>
    intro x rest fuel _ hx hlen
    obtain ⟨m, rfl⟩ : ∃ m, fuel = (m + 1) + 1 := ⟨fuel - 2, by omega⟩
    simp [fieldsLoop, hx, fieldForSchema, applyDefaultPolicy, isOptionalType,
      containerTypeAddAny, inContainerTypes, pyTypeName]
  | cons f pre' ih =>
    intro x rest fuel hall hx hlen
    simp only [List.length_cons] at hlen
    obtain ⟨m, rfl⟩ : ∃ m, fuel = (m + 1) + 1 := ⟨fuel - 2, by omega⟩
    have hf := hall f (List.mem_cons_self _ _)
    have hfield := fieldForSchema_prim env seen "" f.type hf.1 m
    have hrest := ih x rest (m + 1)
      (fun g hg => hall g (List.mem_cons_of_mem _ hg)) hx (by omega)
    simp [List.cons_append, fieldsLoop, hf.2.1, hf.2.2, hfield, hrest]

end MarshmallowDataclass2

namespace MarshmallowDataclass2

/-- `_internal_class_schema` on a non-generic dataclass with an
eligible bare-`tuple` field fails with the nested conversion's
descriptive `TypeError` and its conversion warning. -/
theorem internalClassSchema_bareTuple_field (env : Env) (C : ClassDecl)
    (seen : Seen) (fuel : Nat) (pre : List DcField) (x : DcField)
    (rest : List DcField)
    (hparams : C.params = []) (hdc : C.isDataclass = true)
    (hfields : C.fields = pre ++ x :: rest)
    (hpre : ∀ f ∈ pre, f.type ∈ primShapes ∧ f.default = none ∧
      f.metadata = {} ∧ f.init = true)
    (hx : x.type = .bareTuple) (hxinit : x.init = true)
    (hfuel : pre.length + 3 ≤ fuel) :
    internalClassSchema env none fuel seen (.plain C) =
      (.error (.typeError "tuple is not a dataclass and cannot be turned into one."),
       [.conversionWarning "tuple"]) := by
  obtain ⟨m, rfl⟩ : ∃ m, fuel = m + 1 := ⟨fuel - 1, by omega⟩
  have hdf : dataclassFields (.plain C) = .ok C.fields := by
    simp [dataclassFields, hparams, hdc]
  have hsplit := eligible_split pre x rest C.includeNonInit
    (fun f hf => (hpre f hf).2.2.2) hxinit
  have hloop := fieldsLoop_bareTuple env ((Clazz.plain C, C.name) :: seen)
    pre x (rest.filter (fun f => f.init || C.includeNonInit)) m
    (fun f hf => ⟨(hpre f hf).1, (hpre f hf).2.1, (hpre f hf).2.2.1⟩) hx (by omega)
  simp [internalClassSchema, hdf, hfields, Clazz.origDecl, Clazz.displayName,
    hsplit, hloop, Except.map]

/-- Claim C3: the unresolved-type-variable error always propagates to
the caller unchanged: (1) a declared type that is itself a bare type
variable raises `UnboundTypeVarError` in `_field_for_schema`;
(2) `_internal_class_schema` surfaces that error from any eligible
field unchanged, never caught or converted; (3) the same holds on the
path that retries compilation after implicit dataclass conversion — the
retry's `except UnboundTypeVarError: raise` re-raises it instead of
turning it into the descriptive `TypeError`; and (4) an
`UnboundTypeVarError` raised by the field reflection (the generic
resolver) is re-raised unchanged by `_internal_class_schema`. -/
theorem C3_unbound_type_var_error_propagates :
    (∀ (env : Env) (b : Option BaseSchema) (m : Nat) (seen : Seen) (v : String)
        (dflt : Option Value) (md : Meta),
      fieldForSchema env b (m + 1) seen (.tyvar v) dflt md =
        (.error (.unboundTypeVar ("can not resolve type variable " ++ v)), [])) ∧
    (∀ (env : Env) (C : ClassDecl) (seen : Seen) (fuel : Nat) (v : String)
        (pre : List DcField) (x : DcField) (rest : List DcField),
      C.params = [] → C.isDataclass = true →
      C.fields = pre ++ x :: rest →
      (∀ f ∈ pre, f.type ∈ primShapes ∧ f.default = none ∧ f.metadata = {} ∧
        f.init = true) →
      x.type = .tyvar v → x.init = true →
      pre.length + 3 ≤ fuel →
      internalClassSchema env none fuel seen (.plain C) =
        (.error (.unboundTypeVar ("can not resolve type variable " ++ v)), [])) ∧
    (∀ (env : Env) (C : ClassDecl) (seen : Seen) (fuel : Nat) (v : String)
        (pre : List DcField) (x : DcField) (rest : List DcField),
      C.params = [] → C.isDataclass = false → C.convertible = true →
      C.fields = pre ++ x :: rest →
      (∀ f ∈ pre, f.type ∈ primShapes ∧ f.default = none ∧ f.metadata = {} ∧
        f.init = true) →
      x.type = .tyvar v → x.init = true →
      pre.length + 4 ≤ fuel →
      internalClassSchema env none fuel seen (.plain C) =
        (.error (.unboundTypeVar ("can not resolve type variable " ++ v)),
         [.conversionWarning C.name])) ∧
    (∀ (env : Env) (b : Option BaseSchema) (m : Nat) (seen : Seen) (c : Clazz)
        (msg : String),
      dataclassFields c = .error (.unboundTypeVar msg) →
      internalClassSchema env b (m + 1) seen c =
        (.error (.unboundTypeVar msg), [])) := by
  refine ⟨?_, ?_, ?_, ?_⟩
  · intro env b m seen v dflt md
    simp [fieldForSchema]
  · intro env C seen fuel v pre x rest hparams hdc hfields hpre hx hxinit hfuel
    exact internalClassSchema_unbound_field env C seen fuel v pre x rest
      hparams hdc hfields hpre hx hxinit hfuel
  · intro env C seen fuel v pre x rest hparams hdc hconv hfields hpre hx hxinit
      hfuel
    obtain ⟨m, rfl⟩ : ∃ m, fuel = m + 1 := ⟨fuel - 1, by omega⟩
    have hdf : dataclassFields (.plain C) =
        .error (.typeError (C.name ++ " is not a dataclass")) := by
      simp [dataclassFields, hparams, hdc]
    have hcv : convertClazz (.plain C) = .ok (.plain { C with isDataclass := true }) := by
      simp [convertClazz, hconv]
    have hrec := internalClassSchema_unbound_field env
      { C with isDataclass := true } ((Clazz.plain C, C.name) :: seen) m v
      pre x rest hparams rfl hfields hpre hx hxinit (by omega)
    simp [internalClassSchema, hdf, hcv, Clazz.displayName, hrec]
  · intro env b m seen c msg h
    simp [internalClassSchema, h]

/-- Witness for C3 on the conversion-retry path: compiling the concrete
non-dataclass with a type-variable field surfaces `UnboundTypeVarError`
unchanged (not a `TypeError`), after exactly the one conversion
warning. -/
theorem C3_witness :
    internalClassSchema [] none 10 [] (.plain unboundDemo) =
      (.error (.unboundTypeVar ("can not resolve type variable " ++ "T")),
       [.conversionWarning "B"]) :=
  C3_unbound_type_var_error_propagates.2.2.1 [] unboundDemo [] 10 "T" []
    { name := "y", type := .tyvar "T" } [] rfl rfl rfl rfl (by simp) rfl rfl
    (by decide)

end MarshmallowDataclass2

namespace MarshmallowDataclass2

/-- Claim C4: a compile request on a class that cannot be reflected as
a dataclass warns and attempts exactly one implicit conversion, then
retries: (a) if the conversion itself fails, the caller receives the
descriptive `TypeError` "«name» is not a dataclass and cannot be turned
into one." after the single conversion warning; (b) if the conversion
succeeds and the retry compiles, the result is the converted class's
schema and the warning list shows exactly one conversion attempt for
this class; (c) if the retry fails with any error other than
`UnboundTypeVarError`, the caller receives the same descriptive
`TypeError` — the failure is not silently swallowed. -/
theorem C4_implicit_conversion_retry_once :
    (∀ (env : Env) (b : Option BaseSchema) (C : ClassDecl) (seen : Seen) (m : Nat),
      C.params = [] → C.isDataclass = false → C.convertible = false →
      internalClassSchema env b (m + 1) seen (.plain C) =
        (.error (.typeError
          (C.name ++ " is not a dataclass and cannot be turned into one.")),
         [.conversionWarning C.name])) ∧
    (∀ (env : Env) (C : ClassDecl) (seen : Seen) (fuel : Nat),
      C.params = [] → C.isDataclass = false → C.convertible = true →
      (∀ f ∈ C.fields, f.type ∈ primShapes ∧ f.default = none ∧
        f.metadata = {}) →
      C.fields.length + 3 ≤ fuel →
      internalClassSchema env none fuel seen (.plain C) =
        (.ok { className := C.name,
               fields := (C.fields.filter (fun f => f.init || C.includeNonInit)).map
                 (fun f => (f.name, canonField C.name f.type)) },
         [.conversionWarning C.name])) ∧
    (∀ (env : Env) (C : ClassDecl) (seen : Seen) (fuel : Nat)
        (pre : List DcField) (x : DcField) (rest : List DcField),
      C.params = [] → C.isDataclass = false → C.convertible = true →
      C.fields = pre ++ x :: rest →
      (∀ f ∈ pre, f.type ∈ primShapes ∧ f.default = none ∧ f.metadata = {} ∧
        f.init = true) →
      x.type = .bareTuple → x.init = true →
      pre.length + 4 ≤ fuel →
      internalClassSchema env none fuel seen (.plain C) =
        (.error (.typeError
          (C.name ++ " is not a dataclass and cannot be turned into one.")),
         [.conversionWarning C.name, .conversionWarning "tuple"])) := by
  refine ⟨?_, ?_, ?_⟩
  · intro env b C seen m hparams hdc hconv
    have hdf : dataclassFields (.plain C) =
        .error (.typeError (C.name ++ " is not a dataclass")) := by
      simp [dataclassFields, hparams, hdc]
    simp [internalClassSchema, hdf, convertClazz, hconv, Clazz.displayName]
  · intro env C seen fuel hparams hdc hconv hflds hfuel
    obtain ⟨m, rfl⟩ : ∃ m, fuel = m + 1 := ⟨fuel - 1, by omega⟩
    have hdf : dataclassFields (.plain C) =
        .error (.typeError (C.name ++ " is not a dataclass")) := by
      simp [dataclassFields, hparams, hdc]
    have hcv : convertClazz (.plain C) =
        .ok (.plain { C with isDataclass := true }) := by
      simp [convertClazz, hconv]
    have hrec := internalClassSchema_prims env { C with isDataclass := true }
      ((Clazz.plain C, C.name) :: seen) m hparams rfl hflds
      (by show C.fields.length + 2 ≤ m; omega)
    simp [internalClassSchema, hdf, hcv, Clazz.displayName, hrec]
  · intro env C seen fuel pre x rest hparams hdc hconv hfields hpre hx hxinit
      hfuel
    obtain ⟨m, rfl⟩ : ∃ m, fuel = m + 1 := ⟨fuel - 1, by omega⟩
    have hdf : dataclassFields (.plain C) =
        .error (.typeError (C.name ++ " is not a dataclass")) := by
      simp [dataclassFields, hparams, hdc]
    have hcv : convertClazz (.plain C) =
        .ok (.plain { C with isDataclass := true }) := by
      simp [convertClazz, hconv]
    have hrec := internalClassSchema_bareTuple_field env
      { C with isDataclass := true } ((Clazz.plain C, C.name) :: seen) m
      pre x rest hparams rfl hfields hpre hx hxinit (by omega)
    simp [internalClassSchema, hdf, hcv, Clazz.displayName, hrec]

/-- Witness for C4: when the implicit conversion of a non-dataclass
fails, the caller receives the descriptive `TypeError` after the single
conversion warning. -/
theorem C4_witness :
    internalClassSchema [] none 10 [] (.plain notConvertibleDemo) =
      (.error (.typeError "M is not a dataclass and cannot be turned into one."),
       [.conversionWarning "M"]) :=
  C4_implicit_conversion_retry_once.1 [] none notConvertibleDemo [] 9
    rfl rfl rfl

end MarshmallowDataclass2
